import Mathlib

/-!
Verification of the hevelius-runner orchestration engine against its
specification.  The Python sources under src/ are shallowly embedded as
executable Lean definitions; each numbered theorem settles one claim.
-/

/-! Generic association-list helpers.  Python dicts preserve insertion
order; overwriting an existing key keeps its position, a new key is
appended at the end.  `alGet`/`alSet` mirror `d[k]`/`d[k] = v`. -/

def alGet {κ α : Type} [DecidableEq κ] : List (κ × α) → κ → Option α
  | [], _ => none
  | p :: rest, k => if p.1 = k then some p.2 else alGet rest k

def alSet {κ α : Type} [DecidableEq κ] : List (κ × α) → κ → α → List (κ × α)
  | [], k, v => [(k, v)]
  | p :: rest, k, v => if p.1 = k then (k, v) :: rest else p :: alSet rest k v

/-! FileArrivalDetector (src/src/file_monitor.py).

`_wait_for_file_ready` (lines 57-79) polls the file size once per second
for up to `timeout` seconds.  The environment is modelled by
`obs : Nat → Option Nat`: `obs i` is what `Path(file_path).stat().st_size`
yields at the i-th poll, with `none` standing for a raised
`FileNotFoundError`.  Each loop iteration ends in `time.sleep(1)`, so the
`while time.time() - start_time < timeout` guard admits `timeout`
iterations; `last_size` starts at `-1`. -/

inductive WaitResult where
  | ready
  | disappeared
  | timedOut
deriving DecidableEq

def wait_go (obs : Nat → Option Nat) : Nat → Nat → Int → WaitResult
  | 0, _, _ => WaitResult.timedOut
  | fuel + 1, i, last =>
    match obs i with
    | none => WaitResult.disappeared
    | some sz =>
      if (sz : Int) = last ∧ 0 < sz then WaitResult.ready
      else wait_go obs fuel (i + 1) (sz : Int)

def wait_for_file_ready (obs : Nat → Option Nat) (timeout : Nat) : WaitResult :=
  wait_go obs timeout 0 (-1)

/-- Result of one `FITSHandler._handle_new_file` call (file_monitor.py
lines 36-55): the updated `_processed_files` set, the callback
invocations made (in order), and the stability-wait outcome when the
wait ran.  The source holds `_processing_lock` for the whole body: it
checks the dedup set, runs the stability wait, invokes the callback, and
adds the path to the set only if the callback did not raise
(`cbRaises` models whether `self.callback(file_path)` raises). -/
structure HandleResult where
  processed : List String
  calls : List String
  waited : Option WaitResult
deriving DecidableEq

def handle_new_file (processed : List String) (path : String)
    (obs : Nat → Option Nat) (cbRaises : Bool) : HandleResult :=
  if path ∈ processed then ⟨processed, [], none⟩
  else
    let w := wait_for_file_ready obs 30
    if cbRaises then ⟨processed, [path], some w⟩
    else ⟨path :: processed, [path], some w⟩

/-- One delivery to the detector: either a watchdog creation event
(handled by `FITSHandler._handle_new_file`), or one file visited by the
startup scan `FileMonitor.process_existing_files` (lines 130-138), which
invokes `self._callback` directly without consulting or updating the
handler's `_processed_files` set. -/
inductive FMEvent where
  | created (path : String) (obs : Nat → Option Nat) (cbRaises : Bool)
  | scanned (path : String)

def runEvents : List FMEvent → List String → List String
  | [], _ => []
  | FMEvent.created p obs cbR :: rest, processed =>
    let r := handle_new_file processed p obs cbR
    r.calls ++ runEvents rest r.processed
  | FMEvent.scanned p :: rest, processed =>
    p :: runEvents rest processed

def isCreatedNoRaise : FMEvent → Bool
  | FMEvent.created _ _ cbRaises => !cbRaises
  | FMEvent.scanned _ => false

def pathOfEvent : FMEvent → String
  | FMEvent.created p _ _ => p
  | FMEvent.scanned p => p

def eventPaths (events : List FMEvent) : List String :=
  events.map pathOfEvent

/-! Lock-scope trace of `FITSHandler._handle_new_file` (file_monitor.py
lines 43-55).  The whole body is a `with self._processing_lock:` block:
acquire, dedup-set check, the stability wait (one `waitPoll` per size
poll), the arrival-callback call, the set update (skipped when the
callback raises), release. -/

inductive HEvent where
  | acquire
  | release
  | dedupCheck
  | waitPoll
  | callbackCall
  | markProcessed
deriving DecidableEq

def handle_lock_trace (alreadyProcessed : Bool) (waitPolls : Nat) (cbRaises : Bool) :
    List HEvent :=
  if alreadyProcessed then [HEvent.acquire, HEvent.dedupCheck, HEvent.release]
  else
    [HEvent.acquire, HEvent.dedupCheck]
      ++ List.replicate waitPolls HEvent.waitPoll
      ++ [HEvent.callbackCall]
      ++ (if cbRaises then [] else [HEvent.markProcessed])
      ++ [HEvent.release]

/-- Events of a trace that happen while the lock is held (lock depth
positive at the moment of the event). -/
def eventsUnderLock : List HEvent → Nat → List HEvent
  | [], _ => []
  | HEvent.acquire :: rest, d => eventsUnderLock rest (d + 1)
  | HEvent.release :: rest, d => eventsUnderLock rest (d - 1)
  | e :: rest, d => (if 0 < d then [e] else []) ++ eventsUnderLock rest d

/-- The narrow-lock discipline asserted by the claim: neither a size
poll of the stability wait nor the arrival-callback call happens while
the processing lock is held. -/
def lockNeverHeldAcrossBlocking (t : List HEvent) : Prop :=
  HEvent.waitPoll ∉ eventsUnderLock t 0 ∧ HEvent.callbackCall ∉ eventsUnderLock t 0

/-! ScriptHookDispatcher (src/src/script_executor.py).

`_convert_args_to_cmd` (lines 181-198) builds the flag list with an
accumulator: a boolean True value appends a bare `--key`, a boolean
False value appends nothing (the inner `if value:` has no else branch),
any other value appends `--key` followed by `str(value)`. -/

inductive PyVal where
  | bool (b : Bool)
  | str (s : String)
  | int (n : Int)
deriving DecidableEq

def pyStr : PyVal → String
  | PyVal.bool true => "True"
  | PyVal.bool false => "False"
  | PyVal.str s => s
  | PyVal.int n => toString n

def convertGo : List (String × PyVal) → List String → List String
  | [], acc => acc
  | (key, PyVal.bool true) :: rest, acc => convertGo rest (acc ++ ["--" ++ key])
  | (_, PyVal.bool false) :: rest, acc => convertGo rest acc
  | (key, v) :: rest, acc => convertGo rest (acc ++ ["--" ++ key, pyStr v])

def convert_args_to_cmd (args : List (String × PyVal)) : List String :=
  convertGo args []

/-- Per-key flattening as the claim states it (spec words): a
boolean-true value becomes a bare flag and every other value becomes the
flag followed by the value rendered as a string.  Kept separate so the
code's behaviour can be compared with the claimed one. -/
def convert_args_claimed (args : List (String × PyVal)) : List String :=
  (args.map (fun kv =>
    match kv.2 with
    | PyVal.bool true => ["--" ++ kv.1]
    | v => ["--" ++ kv.1, pyStr v])).flatten

/-- Per-key flattening as the code performs it: boolean False keys are
dropped entirely. -/
def convert_args_per_key (args : List (String × PyVal)) : List String :=
  (args.map (fun kv =>
    match kv.2 with
    | PyVal.bool true => ["--" ++ kv.1]
    | PyVal.bool false => []
    | v => ["--" ++ kv.1, pyStr v])).flatten

/-! Worker loop of the dispatcher (`_script_worker`, lines 77-93) and
`stop_all` (lines 200-206).  A queue item is either a real argument map
or the `None` sentinel that `stop_all` enqueues (its comment: signal to
stop).  One loop iteration does `queue.get()`, runs
`_execute_single_script` (every exception is caught and logged), and
`queue.task_done()`; the body contains no break or return, so no item -
the sentinel included - makes the loop exit, and an empty queue leaves
the worker blocked in `queue.get()`. -/

inductive QItem where
  | stopSignal
  | job (args : List (String × PyVal))
deriving DecidableEq

inductive ExecOutcome where
  | ran (cmd : List String)
  | loggedError (msg : String)
deriving DecidableEq

/-- Shell-script execution of one dequeued item
(`_execute_single_script` / `_execute_shell_script`, lines 95-112 and
146-179).  Executing the `None` sentinel raises (`None.items()` inside
`_convert_args_to_cmd`), which `_execute_single_script` catches and
logs. -/
def execute_single_script (scriptPath : String) (args : Option (List (String × PyVal))) :
    ExecOutcome :=
  match args with
  | none => ExecOutcome.loggedError "AttributeError: NoneType object has no attribute items"
  | some a => ExecOutcome.ran (scriptPath :: convert_args_to_cmd a)

/-- Runs the worker loop over the items currently reachable in its
queue, returning the execution outcomes in order and whether the loop
has exited afterwards.  The flag is `false` in every case because the
`while True` body (lines 87-93) contains no break or return: after the
last item the worker blocks in `queue.get()` again. -/
def script_worker_run (scriptPath : String) : List QItem → List ExecOutcome × Bool
  | [] => ([], false)
  | it :: rest =>
    let out := execute_single_script scriptPath
      (match it with
       | QItem.stopSignal => none
       | QItem.job a => some a)
    let r := script_worker_run scriptPath rest
    (out :: r.1, r.2)

/-- Effect of `stop_all` (lines 200-206) on each started worker: the
`None` sentinel is appended to the worker's queue, the worker consumes
its pending items and the sentinel, and the result records whether the
worker has exited (the subsequent `thread.join(timeout=5)` returns
after at most five seconds whether or not it has). -/
def stop_all_workers (scriptPath : String) (started : List (String × List QItem)) :
    List (String × Bool) :=
  started.map (fun p => (p.1, (script_worker_run scriptPath (p.2 ++ [QItem.stopSignal])).2))

/-! Interleaving model of `ScriptExecutor.execute_script` (lines 37-75)
and the per-type workers.  Caller threads run `execute_script`
concurrently with the workers; under the interpreter lock each
modelled step is atomic, but a context switch may occur between steps.
`execute_script` decomposes into: `checkCreate` (lines 54-59: lazily
create the queue, then evaluate whether a live thread is registered for
the type - workers never exit, so a registered thread is always alive),
`createWorker` (lines 60-67: if the caller's recorded check said no
thread, create a new worker thread and register it, overwriting any
registration made meanwhile), and `enqueue` (line 70: put the argument
map on the type's queue).  A worker repeatedly takes the head of its
queue (`dequeue`, making that job in-flight and logging its begin) and
completes it (`finish`). -/

structure WState where
  wid : Nat
  htype : String
  current : Option Nat

structure DState where
  queues : List (String × List Nat)
  reg : List (String × Nat)
  sawCheck : List (Nat × Bool)
  workers : List WState
  nextWid : Nat
  logBegin : List (String × Nat)

def initState : DState := ⟨[], [], [], [], 0, []⟩

def queueOf (st : DState) (t : String) : List Nat :=
  (alGet st.queues t).getD []

def workersOfType (st : DState) (t : String) : Nat :=
  st.workers.countP (fun w => w.htype = t)

/-- Number of script executions of the given hook type currently in
flight (workers of that type busy with a job). -/
def inFlight (st : DState) (t : String) : Nat :=
  st.workers.countP (fun w => decide (w.htype = t) && w.current.isSome)

/-- Jobs of the given hook type in the order their execution began. -/
def beginsFor (st : DState) (t : String) : List Nat :=
  st.logBegin.filterMap (fun p => if p.1 = t then some p.2 else none)

def findWorker : List WState → Nat → Option WState
  | [], _ => none
  | w :: ws, wid => if w.wid = wid then some w else findWorker ws wid

def setWorkerCurrent : List WState → Nat → Option Nat → List WState
  | [], _, _ => []
  | w :: ws, wid, c =>
    if w.wid = wid then { w with current := c } :: ws
    else w :: setWorkerCurrent ws wid c

inductive DStep where
  | checkCreate (caller : Nat) (t : String)
  | createWorker (caller : Nat) (t : String)
  | enqueue (caller : Nat) (t : String) (job : Nat)
  | dequeue (wid : Nat)
  | finish (wid : Nat)

def stepD (st : DState) (s : DStep) : DState :=
  match s with
  | DStep.checkCreate c t =>
    let q' := match alGet st.queues t with
      | none => st.queues ++ [(t, [])]
      | some _ => st.queues
    { st with queues := q',
              sawCheck := alSet st.sawCheck c (alGet st.reg t).isNone }
  | DStep.createWorker c t =>
    match alGet st.sawCheck c with
    | some true =>
      { st with workers := st.workers ++ [⟨st.nextWid, t, none⟩],
                reg := alSet st.reg t st.nextWid,
                nextWid := st.nextWid + 1 }
    | _ => st
  | DStep.enqueue _ t j =>
    { st with queues := alSet st.queues t (queueOf st t ++ [j]) }
  | DStep.dequeue wid =>
    match findWorker st.workers wid with
    | some w =>
      if w.current.isSome then st
      else
        match queueOf st w.htype with
        | [] => st
        | j :: rest =>
          { st with queues := alSet st.queues w.htype rest,
                    workers := setWorkerCurrent st.workers wid (some j),
                    logBegin := st.logBegin ++ [(w.htype, j)] }
    | none => st
  | DStep.finish wid =>
    match findWorker st.workers wid with
    | some w =>
      if w.current.isSome then { st with workers := setWorkerCurrent st.workers wid none }
      else st
    | none => st

def runSteps (st : DState) : List DStep → DState
  | [] => st
  | s :: rest => runSteps (stepD st s) rest

/-- Job a single step enqueues for the given hook type (empty for
every step other than a matching `enqueue`). -/
def enqOfStep : DStep → String → List Nat
  | DStep.enqueue _ u j, t => if u = t then [j] else []
  | _, _ => []

/-- Jobs enqueued for the given hook type, in trigger-submission
order. -/
def enqueueOrder : List DStep → String → List Nat
  | [], _ => []
  | s :: rest, t => enqOfStep s t ++ enqueueOrder rest t

/-- Worker-creation contribution of a single step for the given hook
type. -/
def createOfStep : DStep → String → Nat
  | DStep.createWorker _ u, t => if u = t then 1 else 0
  | _, _ => 0

/-- Number of `createWorker` steps for the given hook type in a
trace. -/
def createCount : List DStep → String → Nat
  | [], _ => 0
  | s :: rest, t => createOfStep s t + createCount rest t

/-- Everything the dispatcher state records about one hook type: its
pending queue, its begin log, its worker count, and its in-flight
count. -/
def typeView (st : DState) (t : String) : List Nat × List Nat × Nat × Nat :=
  (queueOf st t, beginsFor st t, workersOfType st t, inFlight st t)

/-! ProcessSupervisor (src/src/nina_controller.py, class NINAController). -/

/-- A `subprocess.Popen` handle: `pollResult` is what `poll()` returns,
`none` while the process runs, `some code` once it has exited. -/
structure Proc where
  pid : Nat
  pollResult : Option Int

structure NINAState where
  process : Option Proc
  monitorAlive : Bool
  callbackRegistered : Bool

/-- `NINAController.is_running` (lines 121-130): the handle exists and
`poll()` returns `None`. -/
def nina_is_running (s : NINAState) : Bool :=
  match s.process with
  | some p => p.pollResult.isNone
  | none => false

/-- Environment of one `start_sequence` call: whether the executable
and the sequence file exist on disk, their paths, and the pid the OS
would assign. -/
structure StartEnv where
  exePath : String
  seqPath : String
  exeExists : Bool
  seqExists : Bool
  newPid : Nat

/-- `NINAController.start_sequence` (lines 43-95): reject when already
running, when the executable is missing, or when the sequence file is
missing; otherwise register the callback, launch
`[nina_path, "-s", sequence_path]`, start the monitor thread, and
return True.  The result is (new state, return value, launched command
or `none` when no process was launched). -/
def start_sequence (s : NINAState) (env : StartEnv) :
    NINAState × Bool × Option (List String) :=
  if nina_is_running s then (s, false, none)
  else if !env.exeExists then (s, false, none)
  else if !env.seqExists then (s, false, none)
  else
    ({ process := some ⟨env.newPid, none⟩,
       monitorAlive := true,
       callbackRegistered := true },
     true, some [env.exePath, "-s", env.seqPath])

/-- How the termination in `NINAController.stop` went: the process
exited within the 30 s wait, or the wait timed out and the tree was
force-killed, or some other exception was raised and logged. -/
inductive TermOutcome where
  | graceful
  | timeoutKilled
  | errorLogged

/-- `NINAController.stop` (lines 97-119): when a handle exists, try the
graceful tree-terminate and 30 s wait, escalate to a tree kill on
timeout, log any other error - and in the `finally` block clear the
handle in every one of those cases.  Afterwards the monitor thread, if
alive, is joined and cleared. -/
def nina_stop (s : NINAState) (outcome : TermOutcome) : NINAState :=
  match s.process with
  | none => { s with monitorAlive := false }
  | some _ =>
    match outcome with
    | TermOutcome.graceful => { s with process := none, monitorAlive := false }
    | TermOutcome.timeoutKilled => { s with process := none, monitorAlive := false }
    | TermOutcome.errorLogged => { s with process := none, monitorAlive := false }

/-! NightCycleController (src/src/hevelius-runner.py,
`ObservatoryAutomation.run`, lines 96-113).  Each poll tick evaluates
`is_night_time()` and, whenever it is true, calls
`execute_script('night_start')` and then `process_night_plan(...)`;
the loop keeps no memory of the previous tick's predicate value. -/

inductive MainAction where
  | nightStartHook
  | processPlan
deriving DecidableEq

def run_tick (isNight : Bool) : List MainAction :=
  if isNight then [MainAction.nightStartHook, MainAction.processPlan] else []

def run_loop : List Bool → List MainAction
  | [] => []
  | b :: rest => run_tick b ++ run_loop rest

/-- Modelled from the spec (for comparison with the code): the
edge-triggered loop the claim describes, which invokes the hook and the
plan processing only on a tick where the predicate is true after being
false on the previous tick. -/
def run_loop_edge : List Bool → Bool → List MainAction
  | [], _ => []
  | b :: rest, prev =>
    (if b && !prev then [MainAction.nightStartHook, MainAction.processPlan] else [])
      ++ run_loop_edge rest b

/-! TaskManager (src/src/task_manager.py).  Sequence documents are
JSON values; Python dicts become ordered association lists.  Writing
the file with `json.dump` and reading it back with `json.load` is the
identity on the document, so `prepare_sequence_file` is modelled as
producing the document itself. -/

inductive Json where
  | null
  | bool (b : Bool)
  | num (n : Int)
  | str (s : String)
  | arr (xs : List Json)
  | obj (kvs : List (String × Json))

/-- Propagates the first raised exception, as the Python loops and
comprehensions do. -/
def mapExcept {α β : Type} (f : α → Except String β) : List α → Except String (List β)
  | [] => Except.ok []
  | a :: l =>
    match f a with
    | Except.error e => Except.error e
    | Except.ok b =>
      match mapExcept f l with
      | Except.error e => Except.error e
      | Except.ok bs => Except.ok (b :: bs)

/-- `TaskManager._create_target_from_task` (lines 93-117): `name`,
`ra`, `dec` and `task_id` are required (a missing one raises
`ValueError`); `rotation`, `filters`, `exposures` and
`custom_properties` fall back to defaults via `task.get`. -/
def create_target_from_task (task : List (String × Json)) : Except String Json :=
  match alGet task "name", alGet task "ra", alGet task "dec", alGet task "task_id" with
  | some nm, some ra, some dec, some tid =>
    Except.ok (Json.obj
      [("Name", nm), ("RA", ra), ("Dec", dec),
       ("Rotation", (alGet task "rotation").getD (Json.num 0)),
       ("Filters", (alGet task "filters").getD (Json.arr [])),
       ("Exposures", (alGet task "exposures").getD (Json.arr [])),
       ("TaskId", tid),
       ("CustomProperties", (alGet task "custom_properties").getD (Json.obj []))])
  | _, _, _, _ => Except.error "Invalid task format: missing required field"

/-- `TaskManager.prepare_sequence_file` (lines 51-91): deep-copy the
loaded template, replace its `Targets` entry with one target per task
in task order, set the `MetaData` block, and write the document out. -/
def prepare_sequence_file (template : Json) (tasks : List (List (String × Json)))
    (observatoryId date generatedAt : String) : Except String Json :=
  match mapExcept create_target_from_task tasks with
  | Except.error e => Except.error e
  | Except.ok targets =>
    match template with
    | Json.obj kvs =>
      let s1 := alSet kvs "Targets" (Json.arr targets)
      let s2 := alSet s1 "MetaData" (Json.obj
        [("Date", Json.str date),
         ("ObservatoryId", Json.str observatoryId),
         ("GeneratedAt", Json.str generatedAt)])
      Except.ok (Json.obj s2)
    | _ => Except.error "TypeError: template is not an object"

/-- The subscript `target['TaskId']` applied to one entry of the
`Targets` list. -/
def extract_task_id (tgt : Json) : Except String Json :=
  match tgt with
  | Json.obj tkvs =>
    match alGet tkvs "TaskId" with
    | some v => Except.ok v
    | none => Except.error "KeyError: TaskId"
  | _ => Except.error "TypeError: target is not an object"

/-- `TaskManager.get_task_ids_from_sequence` (lines 119-138): read the
document back and collect `target['TaskId']` over
`sequence.get('Targets', [])`. -/
def get_task_ids_from_sequence (sequence : Json) : Except String (List Json) :=
  match sequence with
  | Json.obj kvs =>
    match (alGet kvs "Targets").getD (Json.arr []) with
    | Json.arr targets => mapExcept extract_task_id targets
    | _ => Except.error "TypeError: Targets is not a list"
  | _ => Except.error "AttributeError: sequence is not an object"

/-- The `TaskId` value a well-formed task contributes, in the totalized
form used to state the round-trip theorem. -/
def taskIdOf (task : List (String × Json)) : Json :=
  (alGet task "task_id").getD Json.null

/-- The target document `_create_target_from_task` builds for a task
whose four required fields are present, written with total lookups so
it can appear in equations. -/
def targetJson (task : List (String × Json)) : Json :=
  Json.obj
    [("Name", (alGet task "name").getD Json.null),
     ("RA", (alGet task "ra").getD Json.null),
     ("Dec", (alGet task "dec").getD Json.null),
     ("Rotation", (alGet task "rotation").getD (Json.num 0)),
     ("Filters", (alGet task "filters").getD (Json.arr [])),
     ("Exposures", (alGet task "exposures").getD (Json.arr [])),
     ("TaskId", (alGet task "task_id").getD Json.null),
     ("CustomProperties", (alGet task "custom_properties").getD (Json.obj []))]

/-! Concrete inputs used by counterexamples and witnesses. -/

/-- Size observations of a file that is seen once and then vanishes
(the second `stat` raises `FileNotFoundError`). -/
def vanishObs : Nat → Option Nat := fun i => if i = 0 then some 5 else none

/-- Size observations of a file whose size is stable at one byte. -/
def stableObs : Nat → Option Nat := fun _ => some 1

/-- An interleaving of two `execute_script('post_task', ...)` calls in
which both callers run lines 54-59 (each sees no registered live
thread) before either runs lines 60-67, so both create and start a
worker thread for the same hook type; each then enqueues its argument
map, and each worker dequeues one of them. -/
def racedSteps : List DStep :=
  [DStep.checkCreate 1 "post_task", DStep.checkCreate 2 "post_task",
   DStep.createWorker 1 "post_task", DStep.createWorker 2 "post_task",
   DStep.enqueue 1 "post_task" 101, DStep.enqueue 2 "post_task" 102,
   DStep.dequeue 0, DStep.dequeue 1]

/-- An unraced trace: one trigger creates the single worker, two jobs
are enqueued, and the worker serves them one after the other. -/
def serialSteps : List DStep :=
  [DStep.checkCreate 1 "post_task", DStep.createWorker 1 "post_task",
   DStep.enqueue 1 "post_task" 7, DStep.enqueue 1 "post_task" 8,
   DStep.dequeue 0, DStep.finish 0, DStep.dequeue 0]

/-- A single well-formed task list for the round-trip witness. -/
def sampleTasks : List (List (String × Json)) :=
  [[("name", Json.str "M31"), ("ra", Json.num 10), ("dec", Json.num 41),
    ("task_id", Json.str "42")]]

/-! Association-list lemmas. -/

theorem alGet_alSet_self {κ α : Type} [DecidableEq κ] (l : List (κ × α)) (k : κ) (v : α) :
    alGet (alSet l k v) k = some v := by
  induction l with
  | nil => simp [alGet, alSet]
  | cons p rest ih =>
    by_cases h : p.1 = k
    · simp [alSet, h, alGet]
    · simp [alSet, h, alGet, ih]

theorem alGet_alSet_ne {κ α : Type} [DecidableEq κ] (l : List (κ × α)) (k k' : κ) (v : α)
    (h : k ≠ k') : alGet (alSet l k v) k' = alGet l k' := by
  induction l with
  | nil => simp [alGet, alSet, h]
  | cons p rest ih =>
    by_cases hp : p.1 = k
    · have hpk : p.1 ≠ k' := by rw [hp]; exact h
      simp [alSet, hp, alGet, h, hpk]
    · simp [alSet, hp, alGet, ih]

theorem alGet_append_none {κ α : Type} [DecidableEq κ] (l₁ l₂ : List (κ × α)) (k : κ)
    (h : alGet l₁ k = none) : alGet (l₁ ++ l₂) k = alGet l₂ k := by
  induction l₁ with
  | nil => simp
  | cons p rest ih =>
    by_cases hp : p.1 = k
    · simp [alGet, hp] at h
    · rw [alGet] at h
      simp only [hp, if_false] at h
      simp [alGet, hp, ih h]

theorem alGet_append_some {κ α : Type} [DecidableEq κ] (l₁ l₂ : List (κ × α)) (k : κ) (v : α)
    (h : alGet l₁ k = some v) : alGet (l₁ ++ l₂) k = some v := by
  induction l₁ with
  | nil => simp [alGet] at h
  | cons p rest ih =>
    by_cases hp : p.1 = k
    · rw [alGet] at h
      simp only [hp, if_true] at h
      simp [alGet, hp, h]
    · rw [alGet] at h
      simp only [hp, if_false] at h
      simp [alGet, hp, ih h]

/-- Claim C4: `NINAController.start_sequence` returns False and
launches nothing when a process is already running or the executable
or the sequence file is missing; otherwise it launches the executable
with the sequence path as argument (`[exe, "-s", seq]`) and returns
True. -/
theorem start_sequence_guards (s : NINAState) (env : StartEnv) :
    (start_sequence s env).2.1
        = (!nina_is_running s && env.exeExists && env.seqExists)
  ∧ (start_sequence s env).2.2
        = (if (!nina_is_running s && env.exeExists && env.seqExists) = true
           then some [env.exePath, "-s", env.seqPath] else none)
  ∧ (start_sequence s env).1
        = (if (!nina_is_running s && env.exeExists && env.seqExists) = true
           then { process := some ⟨env.newPid, none⟩, monitorAlive := true,
                  callbackRegistered := true }
           else s) := by
  cases h1 : nina_is_running s <;> cases h2 : env.exeExists <;> cases h3 : env.seqExists <;>
    simp [start_sequence, h1, h2, h3]

/-- Claim C5: after `NINAController.stop` returns, the process handle
is cleared and `is_running()` is False, whether termination was
graceful, forced after the timeout, or aborted by a logged error. -/
theorem stop_clears_handle (s : NINAState) (outcome : TermOutcome) :
    (nina_stop s outcome).process = none
  ∧ nina_is_running (nina_stop s outcome) = false := by
  cases s with
  | mk proc mon cb => cases proc <;> cases outcome <;> simp [nina_stop, nina_is_running]

/-- Claim C2: evaluation of the worker loop at the failing input.  The
`None` sentinel that `stop_all` enqueues is consumed by the worker as
an ordinary item - its execution raises and is logged - and the
`while True` loop does not exit, so `stop_all` leaves the worker
running (its `join(timeout=5)` merely waits five seconds). -/
theorem stop_all_leaves_worker_running :
    stop_all_workers "/hooks/post_task.sh" [("post_task", [])] = [("post_task", false)]
  ∧ script_worker_run "/hooks/post_task.sh" [QItem.stopSignal]
      = ([ExecOutcome.loggedError "AttributeError: NoneType object has no attribute items"],
         false) := by
  exact ⟨rfl, rfl⟩

/-- Claim C3 counterexample: on two consecutive poll ticks with the
night predicate true, the code invokes the `night_start` hook and the
plan processing on both ticks, while the claimed edge-triggered loop
would invoke them only on the first. -/
theorem night_loop_level_triggered_cex :
    run_loop [true, true]
        = [MainAction.nightStartHook, MainAction.processPlan,
           MainAction.nightStartHook, MainAction.processPlan]
  ∧ run_loop_edge [true, true] false
        = [MainAction.nightStartHook, MainAction.processPlan]
  ∧ run_loop [true, true] ≠ run_loop_edge [true, true] false := by
  refine ⟨rfl, rfl, ?_⟩
  decide

/-- Claim C3 amended: the `night_start` hook and the plan processing
run on every poll tick on which the night predicate is true (the loop
is level-triggered, keeping no memory of the previous tick), so both
happen once per night tick - and a failed process start is therefore
retried on the very next mid-night tick, not only at the next
day-to-night edge. -/
theorem night_hook_every_night_tick (nights : List Bool) :
    (run_loop nights).count MainAction.nightStartHook = nights.count true
  ∧ (run_loop nights).count MainAction.processPlan = nights.count true := by
  induction nights with
  | nil => simp [run_loop]
  | cons b rest ih =>
    cases b <;>
      simp [run_loop, run_tick, List.count_cons, List.count_append, ih.1, ih.2]

/-- Claim C9 counterexample: a key whose value is boolean False is
dropped entirely by `_convert_args_to_cmd`, while the claim maps every
non-True key to the flag followed by the rendered value. -/
theorem convert_args_drops_false_cex :
    convert_args_to_cmd [("verbose", PyVal.bool false)] = []
  ∧ convert_args_claimed [("verbose", PyVal.bool false)] = ["--verbose", "False"]
  ∧ convert_args_to_cmd [("verbose", PyVal.bool false)]
      ≠ convert_args_claimed [("verbose", PyVal.bool false)] := by
  refine ⟨rfl, rfl, ?_⟩
  decide

theorem convertGo_eq_per_key (args : List (String × PyVal)) (acc : List String) :
    convertGo args acc = acc ++ convert_args_per_key args := by
  induction args generalizing acc with
  | nil => simp [convertGo, convert_args_per_key]
  | cons kv rest ih =>
    obtain ⟨k, v⟩ := kv
    cases v with
    | bool b =>
      cases b <;> simp [convertGo, convert_args_per_key, ih]
    | str s => simp [convertGo, convert_args_per_key, ih]
    | int n => simp [convertGo, convert_args_per_key, ih]

/-- Claim C9 amended: the flattening maps, in key order, every
boolean-True key to a bare `--key` flag, omits every boolean-False key
entirely, and maps every non-boolean key to `--key` followed by the
value rendered as a string. -/
theorem convert_args_to_cmd_per_key (args : List (String × PyVal)) :
    convert_args_to_cmd args = convert_args_per_key args := by
  simpa using convertGo_eq_per_key args []

/-- Claim C6 counterexample: the watched file vanishes at the second
size poll, the stability wait returns `disappeared` - and the handler
still invokes the arrival callback for the path. -/
theorem disappeared_still_invokes_cex :
    (handle_new_file [] "a.fits" vanishObs false).waited = some WaitResult.disappeared
  ∧ (handle_new_file [] "a.fits" vanishObs false).calls = ["a.fits"]
  ∧ (handle_new_file [] "a.fits" vanishObs false).calls ≠ [] := by
  refine ⟨rfl, rfl, ?_⟩
  decide

/-- Claim C6 amended: when a size poll raises file-not-found, the
stability wait stops early (returning `disappeared` after a logged
warning), but the handler does not abandon the file - it still
invokes the arrival callback for that path. -/
theorem disappeared_wait_still_invokes (processed : List String) (path : String)
    (obs : Nat → Option Nat) (cbRaises : Bool)
    (hmem : path ∉ processed) (hobs : obs 0 = none) :
    (handle_new_file processed path obs cbRaises).waited = some WaitResult.disappeared
  ∧ (handle_new_file processed path obs cbRaises).calls = [path] := by
  have hw : wait_for_file_ready obs 30 = WaitResult.disappeared := by
    show wait_go obs (29 + 1) 0 (-1) = WaitResult.disappeared
    simp [wait_go, hobs]
  cases cbRaises <;> simp [handle_new_file, hmem, hw]

theorem disappeared_wait_still_invokes_witness :
    (handle_new_file [] "b.fits" (fun _ => none) true).waited = some WaitResult.disappeared
  ∧ (handle_new_file [] "b.fits" (fun _ => none) true).calls = ["b.fits"] :=
  disappeared_wait_still_invokes [] "b.fits" (fun _ => none) true (by simp) rfl

/-- Claim C8 counterexample: in the trace of handling a fresh path
with two size polls, both the stability-wait polls and the arrival
callback happen while the processing lock is held, refuting the
narrow-lock discipline the claim asserts. -/
theorem lock_held_across_blocking_cex :
    ¬ lockNeverHeldAcrossBlocking (handle_lock_trace false 2 false) := by
  unfold lockNeverHeldAcrossBlocking
  decide

theorem eventsUnderLock_replicate_waitPoll (w : Nat) (rest : List HEvent) (d : Nat)
    (hd : 0 < d) :
    eventsUnderLock (List.replicate w HEvent.waitPoll ++ rest) d
      = List.replicate w HEvent.waitPoll ++ eventsUnderLock rest d := by
  induction w with
  | zero => simp
  | succ n ih => simp [List.replicate_succ, eventsUnderLock, hd, ih]

/-- Claim C8 amended: `_handle_new_file` holds the processing lock for
the entire handling of a fresh path - every size poll of the
stability wait and the arrival-callback call happen while the lock is
held, not only the check-and-mark. -/
theorem lock_held_for_entire_handling (w : Nat) (c : Bool) :
    HEvent.callbackCall ∈ eventsUnderLock (handle_lock_trace false w c) 0
  ∧ (eventsUnderLock (handle_lock_trace false w c) 0).count HEvent.waitPoll = w := by
  have h : eventsUnderLock (handle_lock_trace false w c) 0
      = HEvent.dedupCheck ::
          (List.replicate w HEvent.waitPoll
            ++ HEvent.callbackCall :: (if c then [] else [HEvent.markProcessed])) := by
    cases c <;>
      simp [handle_lock_trace, eventsUnderLock, eventsUnderLock_replicate_waitPoll]
  rw [h]
  constructor
  · simp
  · cases c <;> simp [List.count_cons, List.count_append, List.count_replicate]

/-- Claim C1 counterexample: the startup scan visits `a.fits` (one
callback invocation, no dedup-set update) and a creation event for the
same path follows (the handler finds the path absent from its set and
invokes the callback again): two invocations for one path. -/
theorem arrival_callback_twice_cex :
    (runEvents [FMEvent.scanned "a.fits", FMEvent.created "a.fits" stableObs false] []).count
        "a.fits" = 2
  ∧ (2 : Nat) ≠ 1 := by
  exact ⟨rfl, by decide⟩

theorem runEvents_count (events : List FMEvent) (q : String) (processed : List String)
    (h : ∀ e ∈ events, isCreatedNoRaise e = true) :
    (runEvents events processed).count q
      = if q ∈ processed then 0 else if q ∈ eventPaths events then 1 else 0 := by
  induction events generalizing processed with
  | nil => simp [runEvents, eventPaths]
  | cons e rest ih =>
    have hrest : ∀ x ∈ rest, isCreatedNoRaise x = true :=
      fun x hx => h x (List.mem_cons_of_mem _ hx)
    cases e with
    | scanned p =>
      have := h _ (List.mem_cons_self _ _)
      simp [isCreatedNoRaise] at this
    | created p obs cbR =>
      have hcb : cbR = false := by
        have := h _ (List.mem_cons_self _ _)
        simpa [isCreatedNoRaise] using this
      subst hcb
      by_cases hp : p ∈ processed
      · have hh : handle_new_file processed p obs false = ⟨processed, [], none⟩ := by
          simp [handle_new_file, hp]
        rw [runEvents]
        simp only [hh, List.nil_append]
        rw [ih _ hrest]
        by_cases hq : q ∈ processed
        · simp [hq]
        · have hqp : q ≠ p := fun hqp => hq (hqp ▸ hp)
          simp [hq, eventPaths, pathOfEvent, hqp]
      · have hh : handle_new_file processed p obs false
            = ⟨p :: processed, [p], some (wait_for_file_ready obs 30)⟩ := by
          simp [handle_new_file, hp]
        rw [runEvents]
        simp only [hh]
        rw [List.singleton_append, List.count_cons]
        rw [ih _ hrest]
        by_cases hq : q = p
        · subst hq
          simp [hp, eventPaths, pathOfEvent]
        · have hqp : p ≠ q := fun hx => hq hx.symm
          simp [hq, hqp, eventPaths, pathOfEvent]

/-- Claim C1 amended: restricted to creation events whose callback
completes without raising, the arrival callback fires exactly once per
path (once for a path that occurs, never for one that does not); the
startup scan of pre-existing files bypasses the deduplication set and
can add an extra invocation, and a raising callback leaves the path
unmarked so a later event re-invokes it. -/
theorem arrival_callback_exactly_once (events : List FMEvent) (q : String)
    (h : ∀ e ∈ events, isCreatedNoRaise e = true) :
    (runEvents events []).count q = if q ∈ eventPaths events then 1 else 0 := by
  simpa using runEvents_count events q [] h

theorem arrival_callback_exactly_once_witness :
    (runEvents [FMEvent.created "c.fits" stableObs false,
                FMEvent.created "c.fits" stableObs false] []).count "c.fits" = 1 :=
  (arrival_callback_exactly_once
      [FMEvent.created "c.fits" stableObs false, FMEvent.created "c.fits" stableObs false]
      "c.fits" (by decide)).trans (by decide)

theorem mapExcept_comp_map {α β γ : Type} (g : α → β) (f : β → Except String γ)
    (l : List α) :
    mapExcept f (l.map g) = mapExcept (fun a => f (g a)) l := by
  induction l with
  | nil => simp [mapExcept]
  | cons a l ih =>
    rw [List.map_cons, mapExcept, mapExcept]
    cases f (g a) with
    | error e => rfl
    | ok b => rw [ih]

theorem mapExcept_all_ok {α β : Type} (f : α → Except String β) (g : α → β)
    (l : List α) (h : ∀ a ∈ l, f a = Except.ok (g a)) :
    mapExcept f l = Except.ok (l.map g) := by
  induction l with
  | nil => simp [mapExcept]
  | cons a l ih =>
    rw [List.map_cons, mapExcept, h a (List.mem_cons_self _ _),
        ih (fun b hb => h b (List.mem_cons_of_mem _ hb))]

theorem create_target_ok (task : List (String × Json))
    (h1 : (alGet task "name").isSome) (h2 : (alGet task "ra").isSome)
    (h3 : (alGet task "dec").isSome) (h4 : (alGet task "task_id").isSome) :
    create_target_from_task task = Except.ok (targetJson task) := by
  rcases Option.isSome_iff_exists.mp h1 with ⟨nm, hnm⟩
  rcases Option.isSome_iff_exists.mp h2 with ⟨ra, hra⟩
  rcases Option.isSome_iff_exists.mp h3 with ⟨dec, hdec⟩
  rcases Option.isSome_iff_exists.mp h4 with ⟨tid, htid⟩
  simp [create_target_from_task, targetJson, hnm, hra, hdec, htid]

theorem extract_targetJson (task : List (String × Json)) :
    extract_task_id (targetJson task) = Except.ok (taskIdOf task) := by
  rfl

/-- Claim C10: for every object-shaped template, every task list whose
entries carry the required `name`, `ra`, `dec` and `task_id` fields,
and every observatory id and date, extracting task ids from the
sequence document produced by `prepare_sequence_file` yields exactly
the tasks' `task_id` values in input order. -/
theorem prepare_sequence_roundtrip (kvs : List (String × Json))
    (tasks : List (List (String × Json))) (obsId date genAt : String)
    (h : ∀ task ∈ tasks,
        (alGet task "name").isSome ∧ (alGet task "ra").isSome
      ∧ (alGet task "dec").isSome ∧ (alGet task "task_id").isSome) :
    (prepare_sequence_file (Json.obj kvs) tasks obsId date genAt).bind
        get_task_ids_from_sequence
      = Except.ok (tasks.map taskIdOf) := by
  have hm : mapExcept create_target_from_task tasks
      = Except.ok (tasks.map targetJson) :=
    mapExcept_all_ok _ _ _ (fun task ht =>
      create_target_ok task (h task ht).1 (h task ht).2.1 (h task ht).2.2.1
        (h task ht).2.2.2)
  rw [prepare_sequence_file, hm]
  have hget : alGet (alSet (alSet kvs "Targets" (Json.arr (tasks.map targetJson)))
        "MetaData" (Json.obj
          [("Date", Json.str date), ("ObservatoryId", Json.str obsId),
           ("GeneratedAt", Json.str genAt)])) "Targets"
      = some (Json.arr (tasks.map targetJson)) := by
    rw [alGet_alSet_ne _ _ _ _ (by decide)]
    exact alGet_alSet_self _ _ _
  show (Except.ok (Json.obj _)).bind get_task_ids_from_sequence = _
  rw [Except.bind]
  rw [get_task_ids_from_sequence, hget]
  show mapExcept extract_task_id ((tasks.map targetJson)) = _
  rw [mapExcept_comp_map]
  exact mapExcept_all_ok _ _ _ (fun task _ => extract_targetJson task)

theorem prepare_sequence_roundtrip_witness :
    (prepare_sequence_file (Json.obj [("Setup", Json.num 1)]) sampleTasks
        "obs1" "2026-01-01" "t0").bind get_task_ids_from_sequence
      = Except.ok [Json.str "42"] :=
  (prepare_sequence_roundtrip [("Setup", Json.num 1)] sampleTasks
      "obs1" "2026-01-01" "t0" (by decide)).trans rfl

/-! Dispatcher-trace lemmas for claim C7. -/

theorem stepD_checkCreate_logBegin (st : DState) (c : Nat) (u : String) :
    (stepD st (DStep.checkCreate c u)).logBegin = st.logBegin := rfl

theorem stepD_checkCreate_workers (st : DState) (c : Nat) (u : String) :
    (stepD st (DStep.checkCreate c u)).workers = st.workers := rfl

theorem queueOf_checkCreate (st : DState) (c : Nat) (u t : String) :
    queueOf (stepD st (DStep.checkCreate c u)) t = queueOf st t := by
  unfold stepD queueOf
  cases hq : alGet st.queues u with
  | some l => simp [hq]
  | none =>
    simp only [hq]
    cases hqt : alGet st.queues t with
    | some l => rw [alGet_append_some _ _ _ _ hqt]
    | none =>
      rw [alGet_append_none _ _ _ hqt]
      by_cases htu : u = t <;> simp [alGet, htu]

theorem stepD_createWorker_queues (st : DState) (c : Nat) (u : String) :
    (stepD st (DStep.createWorker c u)).queues = st.queues := by
  rw [stepD]
  cases hs : alGet st.sawCheck c with
  | none => rfl
  | some b => cases b <;> rfl

theorem stepD_createWorker_logBegin (st : DState) (c : Nat) (u : String) :
    (stepD st (DStep.createWorker c u)).logBegin = st.logBegin := by
  rw [stepD]
  cases hs : alGet st.sawCheck c with
  | none => rfl
  | some b => cases b <;> rfl

theorem countP_setWorkerCurrent (ws : List WState) (wid : Nat) (c : Option Nat)
    (t : String) :
    (setWorkerCurrent ws wid c).countP (fun w => w.htype = t)
      = ws.countP (fun w => w.htype = t) := by
  induction ws with
  | nil => rfl
  | cons w ws ih =>
    by_cases h : w.wid = wid
    · simp [setWorkerCurrent, h, List.countP_cons]
    · simp [setWorkerCurrent, h, List.countP_cons, ih]

theorem inFlight_le_workersOfType (st : DState) (t : String) :
    inFlight st t ≤ workersOfType st t := by
  unfold inFlight workersOfType
  refine List.countP_mono_left ?_
  intro w _ hw
  simp only [Bool.and_eq_true] at hw
  exact hw.1

theorem stepD_fifo (st : DState) (s : DStep) (t : String) :
    beginsFor (stepD st s) t ++ queueOf (stepD st s) t
      = (beginsFor st t ++ queueOf st t) ++ enqOfStep s t := by
  cases s with
  | checkCreate c u =>
    rw [queueOf_checkCreate]
    simp only [beginsFor, stepD_checkCreate_logBegin, enqOfStep, List.append_nil]
  | createWorker c u =>
    simp only [beginsFor, queueOf, stepD_createWorker_queues,
      stepD_createWorker_logBegin, enqOfStep, List.append_nil]
  | enqueue c u j =>
    by_cases hu : u = t
    · subst hu
      simp only [stepD, beginsFor, queueOf, enqOfStep, if_pos rfl]
      rw [alGet_alSet_self]
      simp [List.append_assoc]
    · simp only [stepD, beginsFor, queueOf, enqOfStep, if_neg hu]
      rw [alGet_alSet_ne _ _ _ _ hu]
      simp
  | dequeue wid =>
    rw [stepD]
    cases hf : findWorker st.workers wid with
    | none => simp [enqOfStep]
    | some w =>
      by_cases hcur : w.current.isSome
      · simp [hcur, enqOfStep]
      · simp only [hcur, Bool.false_eq_true, if_false]
        cases hq : queueOf st w.htype with
        | nil => simp [enqOfStep]
        | cons j rest =>
          by_cases hwt : w.htype = t
          · subst hwt
            simp only [beginsFor, queueOf, enqOfStep, List.filterMap_append]
            rw [alGet_alSet_self]
            simp only [List.filterMap, if_pos rfl]
            rw [show (alGet st.queues w.htype).getD [] = j :: rest from hq]
            simp [List.append_assoc]
          · simp only [beginsFor, queueOf, enqOfStep, List.filterMap_append]
            rw [alGet_alSet_ne _ _ _ _ hwt]
            simp [List.filterMap, hwt]
  | finish wid =>
    rw [stepD]
    cases hf : findWorker st.workers wid with
    | none => simp [enqOfStep]
    | some w =>
      by_cases hcur : w.current.isSome
      · simp [hcur, enqOfStep, beginsFor, queueOf]
      · simp [hcur, enqOfStep]

theorem stepD_workers_le (st : DState) (s : DStep) (t : String) :
    workersOfType (stepD st s) t ≤ workersOfType st t + createOfStep s t := by
  cases s with
  | checkCreate c u =>
    simp [workersOfType, stepD_checkCreate_workers, createOfStep]
  | createWorker c u =>
    rw [stepD]
    cases hs : alGet st.sawCheck c with
    | none => simp [workersOfType, createOfStep]
    | some b =>
      cases b with
      | false => simp [workersOfType, createOfStep]
      | true =>
        simp only [workersOfType, createOfStep, List.countP_append, List.countP_cons,
          List.countP_nil]
        by_cases hu : u = t <;> simp [hu]
  | enqueue c u j => simp [workersOfType, stepD, createOfStep]
  | dequeue wid =>
    rw [stepD]
    cases hf : findWorker st.workers wid with
    | none => simp [createOfStep]
    | some w =>
      by_cases hcur : w.current.isSome
      · simp [hcur, createOfStep]
      · simp only [hcur, Bool.false_eq_true, if_false]
        cases hq : queueOf st w.htype with
        | nil => simp [createOfStep]
        | cons j rest =>
          simp [workersOfType, countP_setWorkerCurrent, createOfStep]
  | finish wid =>
    rw [stepD]
    cases hf : findWorker st.workers wid with
    | none => simp [createOfStep]
    | some w =>
      by_cases hcur : w.current.isSome
      · simp [hcur, workersOfType, countP_setWorkerCurrent, createOfStep]
      · simp [hcur, createOfStep]

theorem runSteps_fifo (steps : List DStep) (st : DState) (t : String) :
    beginsFor (runSteps st steps) t ++ queueOf (runSteps st steps) t
      = (beginsFor st t ++ queueOf st t) ++ enqueueOrder steps t := by
  induction steps generalizing st with
  | nil => simp [runSteps, enqueueOrder]
  | cons s rest ih =>
    rw [runSteps, enqueueOrder, ih (stepD st s), stepD_fifo]
    simp [List.append_assoc]

theorem runSteps_workers (steps : List DStep) (st : DState) (t : String) :
    workersOfType (runSteps st steps) t ≤ workersOfType st t + createCount steps t := by
  induction steps generalizing st with
  | nil => simp [runSteps, createCount]
  | cons s rest ih =>
    rw [runSteps, createCount]
    calc workersOfType (runSteps (stepD st s) rest) t
        ≤ workersOfType (stepD st s) t + createCount rest t := ih (stepD st s)
      _ ≤ (workersOfType st t + createOfStep s t) + createCount rest t :=
          Nat.add_le_add_right (stepD_workers_le st s t) _
      _ = workersOfType st t + (createOfStep s t + createCount rest t) := by omega

theorem typeView_checkCreate (st : DState) (c : Nat) (u t : String) :
    typeView (stepD st (DStep.checkCreate c u)) t = typeView st t := by
  unfold typeView
  rw [queueOf_checkCreate]
  simp only [beginsFor, workersOfType, inFlight, stepD_checkCreate_logBegin,
    stepD_checkCreate_workers]

theorem typeView_enqueue_other (st : DState) (c : Nat) (u t : String) (j : Nat)
    (hu : u ≠ t) :
    typeView (stepD st (DStep.enqueue c u j)) t = typeView st t := by
  have hq : queueOf (stepD st (DStep.enqueue c u j)) t = queueOf st t := by
    unfold queueOf
    rw [show (stepD st (DStep.enqueue c u j)).queues
          = alSet st.queues u (queueOf st u ++ [j]) from rfl]
    rw [alGet_alSet_ne _ _ _ _ hu]
  unfold typeView
  rw [hq]
  rfl

theorem typeView_createWorker_other (st : DState) (c : Nat) (u t : String)
    (hu : u ≠ t) :
    typeView (stepD st (DStep.createWorker c u)) t = typeView st t := by
  unfold typeView
  rw [stepD]
  cases hs : alGet st.sawCheck c with
  | none => rfl
  | some b =>
    cases b with
    | false => rfl
    | true =>
      simp only [queueOf, beginsFor, workersOfType, inFlight, List.countP_append,
        List.countP_cons, List.countP_nil]
      simp [hu]

/-- Claim C7 counterexample: in the raced interleaving both triggers
pass the line-59 liveness check before either creates a thread, so two
workers for `post_task` exist and, after each dequeues one job, two
script executions of the same hook type are in flight at once. -/
theorem trigger_two_in_flight_cex :
    ¬ inFlight (runSteps initState racedSteps) "post_task" ≤ 1 := by
  decide

/-- Claim C7 amended: provided the lazy worker creation is not raced -
the trace creates at most one worker thread for the hook type - then
at most one script execution of that type is in flight at the end of
any trace (and hence at any time, since every prefix is itself a
trace), jobs of the type begin execution in exactly their submission
order (the begin log followed by the still-pending queue equals the
enqueue order), and a trigger step for a different hook type leaves
the type's queue, begin log, worker count and in-flight count
unchanged, so triggers for different types never disturb each other. -/
theorem trigger_fifo_serialized (steps : List DStep) (t : String)
    (hc : createCount steps t ≤ 1)
    (st : DState) (c : Nat) (u : String) (j : Nat) (hu : u ≠ t) :
    inFlight (runSteps initState steps) t ≤ 1
  ∧ beginsFor (runSteps initState steps) t ++ queueOf (runSteps initState steps) t
      = enqueueOrder steps t
  ∧ typeView (stepD st (DStep.enqueue c u j)) t = typeView st t
  ∧ typeView (stepD st (DStep.checkCreate c u)) t = typeView st t
  ∧ typeView (stepD st (DStep.createWorker c u)) t = typeView st t := by
  refine ⟨?_, ?_, typeView_enqueue_other st c u t j hu,
    typeView_checkCreate st c u t, typeView_createWorker_other st c u t hu⟩
  · calc inFlight (runSteps initState steps) t
        ≤ workersOfType (runSteps initState steps) t :=
          inFlight_le_workersOfType _ _
      _ ≤ workersOfType initState t + createCount steps t :=
          runSteps_workers steps initState t
      _ ≤ 1 := by
          have h0 : workersOfType initState t = 0 := rfl
          omega
  · have h := runSteps_fifo steps initState t
    have hb : beginsFor initState t = [] := rfl
    have hq : queueOf initState t = [] := rfl
    rw [hb, hq] at h
    simpa using h

theorem trigger_fifo_serialized_witness :
    inFlight (runSteps initState serialSteps) "post_task" ≤ 1
  ∧ beginsFor (runSteps initState serialSteps) "post_task"
        ++ queueOf (runSteps initState serialSteps) "post_task"
      = enqueueOrder serialSteps "post_task"
  ∧ typeView (stepD initState (DStep.enqueue 9 "night_end" 5)) "post_task"
      = typeView initState "post_task"
  ∧ typeView (stepD initState (DStep.checkCreate 9 "night_end")) "post_task"
      = typeView initState "post_task"
  ∧ typeView (stepD initState (DStep.createWorker 9 "night_end")) "post_task"
      = typeView initState "post_task" :=
  trigger_fifo_serialized serialSteps "post_task" (by decide) initState 9 "night_end" 5
    (by decide)
